import Mathlib

/-!
Verification of the downtik front-end core: the API data-fusion layer
(`src/js/modules/api.js`), the media download orchestrator
(`src/js/modules/download/media-downloader.js`), the bulk image downloader
(`src/js/modules/download/image-downloader.js`, `src/js/modules/download.js`),
URL validation and normalization (`validators.js`, `utils.js`, `api.js`),
the response cache and the rate limiter (`api.js`).

JavaScript values are embedded as follows: strings are `String` (a missing or
empty string is `""` where JS relies on falsiness, `Option String` where the
source distinguishes `undefined` from a present value); millisecond clock
readings are `Nat`; JS `Map` is an association list in insertion order;
`async` control flow is sequentialized (the app is single-threaded), network
and DOM effects are oracles `Nat → Except String _` giving the outcome of the
n-th invocation.
-/

namespace Downtik

/-- JS `a || b` for strings: `a` unless it is falsy (empty). -/
def jsOr (a b : String) : String := if a = "" then b else a

/-- Search for `needle` as a contiguous sublist of `hay`. -/
def sublistSearch (needle : List Char) : List Char → Bool
  | [] => needle.isEmpty
  | c :: rest => needle.isPrefixOf (c :: rest) || sublistSearch needle rest

/-- `needle` occurs as a substring of `hay` (JS `String.prototype.includes`). -/
def substrOf (needle hay : String) : Bool := sublistSearch needle.toList hay.toList

/-- JS `String.prototype.toLowerCase` (over the characters). -/
def lowerString (s : String) : String := String.mk (s.toList.map Char.toLower)

/-- JS `String.prototype.endsWith`. -/
def strEndsWith (s suffix : String) : Bool :=
  suffix.toList.reverse.isPrefixOf s.toList.reverse

/-- JS `String.prototype.startsWith`. -/
def strStartsWith (s pre : String) : Bool := pre.toList.isPrefixOf s.toList

/-! ## ResponseCache (api.js `getFromCache` / `saveToCache`)

`this.requestCache` is a JS `Map`, i.e. an insertion-ordered association
list with unique keys.  Entries are `(key, timestamp, data)`. -/

/-- The cache store: a JS `Map` in insertion order. -/
abbrev Cache (α : Type) : Type := List (String × Nat × α)

/-- JS `Map.prototype.get`. -/
def mapGet {α : Type} : Cache α → String → Option (Nat × α)
  | [], _ => none
  | e :: rest, k => if e.1 = k then some e.2 else mapGet rest k

/-- JS `Map.prototype.set`: replace the key in place, else append. -/
def mapSet {α : Type} : Cache α → String → Nat × α → Cache α
  | [], k, v => [(k, v.1, v.2)]
  | e :: rest, k, v => if e.1 = k then (k, v.1, v.2) :: rest else e :: mapSet rest k v

/-- JS `Map.prototype.delete` (keys are unique, so deleting the first
occurrence models it). -/
def mapDelete {α : Type} : Cache α → String → Cache α
  | [], _ => []
  | e :: rest, k => if e.1 = k then rest else e :: mapDelete rest k

/-- `this.cacheTimeout = 5 * 60 * 1000` (api.js). -/
def cacheTimeout : Nat := 5 * 60 * 1000

/-- api.js `getFromCache(url)`: a hit within the TTL returns the data; an
expired entry is deleted on access.  Takes `Date.now()` as `now` and returns
the result together with the updated store. -/
def getFromCache {α : Type} (c : Cache α) (url : String) (now : Nat) :
    Option α × Cache α :=
  match mapGet c url with
  | some (ts, data) =>
      if now - ts < cacheTimeout then (some data, c) else (none, mapDelete c url)
  | none => (none, c)

/-- `requestCache.keys().next().value` followed by `delete`: drop the entry
with the first key in insertion order. -/
def evictOldest {α : Type} : Cache α → Cache α
  | [] => []
  | e :: rest => mapDelete (e :: rest) e.1

/-- api.js `saveToCache(url, data)`: set the entry, then if the store holds
more than 50 entries delete the first key in insertion order. -/
def saveToCache {α : Type} (c : Cache α) (url : String) (data : α) (now : Nat) :
    Cache α :=
  let c' := mapSet c url (now, data)
  if c'.length > 50 then evictOldest c' else c'

/-- The keys of a cache, in insertion order. -/
def cacheKeys {α : Type} (c : Cache α) : List String := c.map (fun e => e.1)

lemma cacheKeys_nil {α : Type} : cacheKeys ([] : Cache α) = [] := rfl

lemma cacheKeys_cons {α : Type} (e : String × Nat × α) (rest : Cache α) :
    cacheKeys (e :: rest) = e.1 :: cacheKeys rest := rfl

lemma mapGet_eq_none_iff {α : Type} (c : Cache α) (k : String) :
    mapGet c k = none ↔ k ∉ cacheKeys c := by
  induction c with
  | nil => simp [mapGet, cacheKeys_nil]
  | cons e rest ih =>
      rw [cacheKeys_cons]
      by_cases h : e.1 = k
      · simp [mapGet, h]
      · simp [mapGet, h, ih, Ne.symm h]

lemma mapGet_mapSet_self {α : Type} (c : Cache α) (k : String) (v : Nat × α) :
    mapGet (mapSet c k v) k = some v := by
  induction c with
  | nil => simp [mapSet, mapGet]
  | cons e rest ih =>
      by_cases h : e.1 = k <;> simp [mapSet, mapGet, h, ih]

lemma mapSet_of_not_mem {α : Type} (c : Cache α) (k : String) (v : Nat × α)
    (h : k ∉ cacheKeys c) : mapSet c k v = c ++ [(k, v.1, v.2)] := by
  induction c with
  | nil => simp [mapSet]
  | cons e rest ih =>
      rw [cacheKeys_cons] at h
      simp only [List.mem_cons, not_or] at h
      simp [mapSet, Ne.symm h.1, ih h.2]

lemma length_mapSet_of_mem {α : Type} (c : Cache α) (k : String) (v : Nat × α)
    (h : k ∈ cacheKeys c) : (mapSet c k v).length = c.length := by
  induction c with
  | nil => simp [cacheKeys_nil] at h
  | cons e rest ih =>
      by_cases he : e.1 = k
      · simp [mapSet, he]
      · rw [cacheKeys_cons] at h
        simp only [List.mem_cons] at h
        rcases h with h | h
        · exact absurd h.symm he
        · simp [mapSet, he, ih h]

lemma mapGet_append_of_not_mem {α : Type} (c c₂ : Cache α) (k : String)
    (h : k ∉ cacheKeys c) : mapGet (c ++ c₂) k = mapGet c₂ k := by
  induction c with
  | nil => simp
  | cons e rest ih =>
      rw [cacheKeys_cons] at h
      simp only [List.mem_cons, not_or] at h
      simpa [mapGet, Ne.symm h.1] using ih h.2

lemma cacheKeys_mapSet_of_mem {α : Type} (c : Cache α) (k : String) (v : Nat × α)
    (h : k ∈ cacheKeys c) : cacheKeys (mapSet c k v) = cacheKeys c := by
  induction c with
  | nil => simp [cacheKeys_nil] at h
  | cons e rest ih =>
      by_cases he : e.1 = k
      · simp [mapSet, he, cacheKeys_cons]
      · rw [cacheKeys_cons] at h
        simp only [List.mem_cons] at h
        rcases h with h | h
        · exact absurd h.symm he
        · simp [mapSet, he, cacheKeys_cons, ih h]

lemma mapGet_mapDelete_of_nodup {α : Type} (c : Cache α) (k : String)
    (h : (cacheKeys c).Nodup) : mapGet (mapDelete c k) k = none := by
  induction c with
  | nil => simp [mapDelete, mapGet]
  | cons e rest ih =>
      rw [cacheKeys_cons, List.nodup_cons] at h
      by_cases he : e.1 = k
      · subst he
        rw [mapDelete, if_pos rfl, mapGet_eq_none_iff]
        exact h.1
      · simp [mapDelete, mapGet, he, ih h.2]

lemma cacheKeys_append {α : Type} (c c₂ : Cache α) :
    cacheKeys (c ++ c₂) = cacheKeys c ++ cacheKeys c₂ := by
  simp [cacheKeys]

lemma cacheKeys_mapDelete_sublist {α : Type} (c : Cache α) (k : String) :
    (cacheKeys (mapDelete c k)).Sublist (cacheKeys c) := by
  induction c with
  | nil => simp [mapDelete]
  | cons e rest ih =>
      by_cases he : e.1 = k
      · simp only [mapDelete, if_pos he, cacheKeys_cons]
        exact (List.sublist_cons_self _ _)
      · simp only [mapDelete, if_neg he, cacheKeys_cons]
        exact ih.cons₂ _

lemma length_mapDelete_le {α : Type} (c : Cache α) (k : String) :
    (mapDelete c k).length ≤ c.length := by
  have h := (cacheKeys_mapDelete_sublist c k).length_le
  simpa [cacheKeys] using h

lemma nodup_cacheKeys_append_fresh {α : Type} (c : Cache α) (k : String)
    (t : Nat) (v : α) (hnd : (cacheKeys c).Nodup) (hk : k ∉ cacheKeys c) :
    (cacheKeys (c ++ [(k, t, v)])).Nodup := by
  rw [cacheKeys_append]
  refine hnd.append (List.nodup_singleton k) ?_
  intro a ha hb
  rw [cacheKeys_cons, cacheKeys_nil] at hb
  simp only [List.mem_singleton] at hb
  exact hk (hb ▸ ha)

lemma saveToCache_of_fresh_full {α : Type} (c : Cache α) (k : String) (v : α)
    (t : Nat) (hk : k ∉ cacheKeys c) (hlen : c.length = 50) :
    saveToCache c k v t = c.tail ++ [(k, t, v)] := by
  have hset : mapSet c k (t, v) = c ++ [(k, t, v)] := mapSet_of_not_mem c k _ hk
  rcases c with _ | ⟨e, cs⟩
  · simp at hlen
  · have hcs : cs.length = 49 := by simp at hlen; omega
    have hov : ((e :: cs) ++ [(k, t, v)]).length > 50 := by simp; omega
    simp only [saveToCache, hset]
    rw [if_pos hov]
    simp [List.cons_append, evictOldest, mapDelete]

lemma saveToCache_spec {α : Type} (c : Cache α) (k : String) (v : α) (t : Nat)
    (hnd : (cacheKeys c).Nodup) (hle : c.length ≤ 50) :
    mapGet (saveToCache c k v t) k = some (t, v) ∧
    (cacheKeys (saveToCache c k v t)).Nodup ∧
    (saveToCache c k v t).length ≤ 50 := by
  by_cases hk : k ∈ cacheKeys c
  · have hlen : (mapSet c k (t, v)).length = c.length := length_mapSet_of_mem c k _ hk
    have hkeys : cacheKeys (mapSet c k (t, v)) = cacheKeys c := cacheKeys_mapSet_of_mem c k _ hk
    have hng : ¬ (mapSet c k (t, v)).length > 50 := by omega
    simp only [saveToCache, if_neg hng]
    exact ⟨mapGet_mapSet_self c k _, by rw [hkeys]; exact hnd, by omega⟩
  · have hset : mapSet c k (t, v) = c ++ [(k, t, v)] := mapSet_of_not_mem c k _ hk
    by_cases hfull : c.length = 50
    · -- overflow: the store reached 51 entries, the first key is evicted
      have heq : saveToCache c k v t = c.tail ++ [(k, t, v)] :=
        saveToCache_of_fresh_full c k v t hk hfull
      rcases c with _ | ⟨e, cs⟩
      · simp at hfull
      · rw [cacheKeys_cons, List.nodup_cons] at hnd
        have hkcs : k ∉ cacheKeys cs := by
          intro hm; exact hk (by rw [cacheKeys_cons]; exact List.mem_cons_of_mem _ hm)
        rw [heq]
        refine ⟨?_, ?_, ?_⟩
        · rw [List.tail_cons, mapGet_append_of_not_mem _ _ _ hkcs]
          simp [mapGet]
        · rw [List.tail_cons]
          exact nodup_cacheKeys_append_fresh cs k t v hnd.2 hkcs
        · have : cs.length + 1 = 50 := by simpa using hfull
          simp; omega
    · have hov : ¬ (mapSet c k (t, v)).length > 50 := by simp [hset]; omega
      simp only [saveToCache, if_neg hov]
      refine ⟨mapGet_mapSet_self c k _, ?_, by simp [hset]; omega⟩
      rw [hset]
      exact nodup_cacheKeys_append_fresh c k t v hnd hk

/-- The entry just saved is found by `mapGet`, with its timestamp. -/
lemma mapGet_saveToCache {α : Type} (c : Cache α) (k : String) (v : α) (t : Nat)
    (hnd : (cacheKeys c).Nodup) (hle : c.length ≤ 50) :
    mapGet (saveToCache c k v t) k = some (t, v) :=
  (saveToCache_spec c k v t hnd hle).1

/-- A 50-entry store with pairwise distinct keys, used to exercise eviction. -/
def fullStore : Cache Nat := (List.range 50).map (fun i => (toString i, (0, i)))

/-! ## Data model of the fused media record (api.js)

`normalizeTikwmData` produces the metadata (TikWM) record;
`normalizeTikVidData` produces the download-link (TikVid) payload;
`combineMetadataAndDownloads` fuses them.  Fields the claims never touch
(statistics counts, region, timestamps) are omitted; strings follow JS
truthiness with `""` as the falsy/absent value. -/

/-- A `music_info` object as built by api.js (branches differ in whether
`original` or `quality` is attached; absent fields default). -/
structure MusicInfo where
  id : String := ""
  title : String := ""
  author : String := ""
  play : String := ""
  cover : String := ""
  duration : Nat := 0
  original : Bool := false
  quality : Option String := none
deriving DecidableEq, Repr

/-- One entry of the TikVid `downloads` array: `{ type, quality, url }`. -/
structure DownloadEntry where
  dtype : String
  quality : String
  url : String
deriving DecidableEq, Repr

/-- One entry of the TikVid `photoList`: `{ thumbnail, downloadUrl, index }`. -/
structure Photo where
  thumbnail : String
  downloadUrl : String
  index : Nat
deriving DecidableEq, Repr

/-- The `metadata` sub-object carried by the records (only the fields the
fusion layer reads or writes). -/
structure MetaInfo where
  source : String := ""
  downloadMode : Option String := none
  note : Option String := none
  hasHighQualityDownloads : Bool := false
  originalUrl : String := ""
deriving DecidableEq, Repr

/-- The normalized TikVid proxy payload (`normalizeTikVidData` output), as
read by `combineMetadataAndDownloads`. -/
structure TikvidData where
  id : String := ""
  title : String := ""
  thumbnail : String := ""
  poster : String := ""
  videoPreview : String := ""
  downloads : List DownloadEntry := []
  directVideoLinks : List String := []
  downloadCount : Nat := 0
  photoList : List Photo := []
  photoCount : Nat := 0
deriving DecidableEq, Repr

/-- The per-kind TikVid download URLs collected by the fusion step
(`tikvidUrls`); a kind is absent when the provider returned no such entry. -/
structure TikvidUrls where
  play : Option String := none
  hdplay : Option String := none
  wmplay : Option String := none
  music : Option String := none
deriving DecidableEq, Repr

/-- `combined.originalUrls`: the TikWM URLs preserved for preview. -/
structure OriginalUrls where
  play : String
  hdplay : String
  wmplay : String
  music : String
deriving DecidableEq, Repr

/-- `combined.tikvidData`: the TikVid-specific block attached by fusion. -/
structure TikvidBlock where
  downloads : List DownloadEntry := []
  directVideoLinks : List String := []
  downloadCount : Nat := 0
  photoList : List Photo := []
  photoCount : Nat := 0
  videoPreview : String := ""
  downloadUrls : TikvidUrls := {}
  imageDownloadLinks : List Photo := []
deriving DecidableEq, Repr

/-- The unified media record: a TikWM record (possibly) extended by fusion
with `tikvidData` and `originalUrls`.  A plain TikWM record (metadata-only)
has `tikvidData = none` and `originalUrls = none`. -/
structure CombinedRecord where
  id : String := ""
  title : String := ""
  cover : String := ""
  play : String := ""
  hdplay : String := ""
  wmplay : String := ""
  music : String := ""
  authorNickname : String := ""
  music_info : Option MusicInfo := none
  images : List String := []
  isPhotoSlideshow : Bool := false
  metadata : MetaInfo := {}
  tikvidData : Option TikvidBlock := none
  originalUrls : Option OriginalUrls := none
deriving DecidableEq, Repr

/-- The `videoDownloads` of the fusion step: entries with `type === 'video'`. -/
def videoDownloadsOf (t : TikvidData) : List DownloadEntry :=
  t.downloads.filter (fun d => d.dtype = "video")

/-- The `audioDownloads` of the fusion step: entries with `type === 'audio'`. -/
def audioDownloadsOf (t : TikvidData) : List DownloadEntry :=
  t.downloads.filter (fun d => d.dtype = "audio")

/-- The `tikvidUrls` object built at api.js:738-757: per kind, the URL of the
first download entry whose quality label contains the kind's marker
(`HD` / `[1]` / `[2]`), and the first audio entry's URL. -/
def tikvidUrlsOf (t : TikvidData) : TikvidUrls :=
  if t.downloads.length > 0 then
    { hdplay := ((videoDownloadsOf t).find? (fun v => substrOf "HD" v.quality)).map
        (fun v => v.url),
      play := ((videoDownloadsOf t).find? (fun v => substrOf "[1]" v.quality)).map
        (fun v => v.url),
      wmplay := ((videoDownloadsOf t).find? (fun v => substrOf "[2]" v.quality)).map
        (fun v => v.url),
      music := (audioDownloadsOf t).head?.map (fun d => d.url) }
  else {}

/-- The `music_info` fallback chain of api.js:789-819, entered when TikWM has
no playable `music_info`: synthesize from the TikVid audio entry, else from
`tikvidUrls.music || originalTikwmUrls.music` unless empty or `'#'`, else
null. -/
def musicInfoFallback (tikwm : CombinedRecord) (tikvid : TikvidData) :
    Option MusicInfo :=
  match tikvid.downloads.find? (fun d => d.dtype = "audio") with
  | some audioDownload => some
      { id := jsOr tikvid.id "music_1",
        title := jsOr tikwm.title (jsOr tikvid.title "Background Music"),
        author := jsOr tikwm.authorNickname "TikTok User",
        play := audioDownload.url,
        cover := jsOr tikwm.cover (jsOr tikvid.thumbnail (jsOr tikvid.poster "")),
        duration := 0,
        quality := some (jsOr audioDownload.quality "MP3") }
  | none =>
      let bestAudioUrl :=
        match (tikvidUrlsOf tikvid).music with
        | some s => jsOr s tikwm.music
        | none => tikwm.music
      if bestAudioUrl ≠ "" ∧ bestAudioUrl ≠ "#" then some
        { id := jsOr tikvid.id "music_1",
          title := jsOr tikwm.title "Original Sound",
          author := jsOr tikwm.authorNickname "TikTok User",
          play := bestAudioUrl,
          cover := jsOr tikwm.cover (jsOr tikvid.thumbnail ""),
          duration := 0 }
      else none

/-- The `music_info` of the fused record (api.js:776-819): TikWM's own
`music_info` when it has a playable URL, else the fallback chain. -/
def musicInfoOf (tikwm : CombinedRecord) (tikvid : TikvidData) :
    Option MusicInfo :=
  match tikwm.music_info with
  | some mi =>
      if mi.play ≠ "" then some
        { id := jsOr mi.id (jsOr tikvid.id "music_1"),
          title := jsOr mi.title "Original Sound",
          author := jsOr mi.author (jsOr tikwm.authorNickname "TikTok User"),
          play := mi.play,
          cover := jsOr mi.cover (jsOr tikwm.cover (jsOr tikvid.thumbnail "")),
          duration := mi.duration,
          original := mi.original }
      else musicInfoFallback tikwm tikvid
  | none => musicInfoFallback tikwm tikvid

/-- api.js `combineMetadataAndDownloads(tikwmData, tikvidData, originalUrl)`:
TikWM is the base; its own play/hdplay/wmplay/music are preserved (also
copied into `originalUrls` for preview); TikVid URLs are stored separately
under `tikvidData.downloadUrls` for downloading; slideshow photo lists from
TikVid take precedence; metadata is tagged `hybrid_tikwm_tikvid`. -/
def combineMetadataAndDownloads (tikwm : CombinedRecord) (tikvid : TikvidData)
    (originalUrl : String) : CombinedRecord :=
  let originalTikwmUrls : OriginalUrls :=
    ⟨tikwm.play, tikwm.hdplay, tikwm.wmplay, tikwm.music⟩
  let tikvidUrls := tikvidUrlsOf tikvid
  let hasPhotos := tikvid.photoList.length > 0
  { tikwm with
    music_info := musicInfoOf tikwm tikvid,
    images := if hasPhotos then tikvid.photoList.map (fun p => p.thumbnail)
              else tikwm.images,
    isPhotoSlideshow := if hasPhotos then true else tikwm.isPhotoSlideshow,
    metadata := { tikwm.metadata with
      source := "hybrid_tikwm_tikvid",
      hasHighQualityDownloads := tikvid.downloads.length > 0,
      originalUrl := originalUrl },
    tikvidData := some
      { downloads := tikvid.downloads,
        directVideoLinks := tikvid.directVideoLinks,
        downloadCount := tikvid.downloadCount,
        photoList := tikvid.photoList,
        photoCount := tikvid.photoCount,
        videoPreview := tikvid.videoPreview,
        downloadUrls := tikvidUrls,
        imageDownloadLinks :=
          if hasPhotos then
            tikvid.photoList.map (fun p => ⟨p.thumbnail, p.downloadUrl, p.index⟩)
          else [] },
    originalUrls := some originalTikwmUrls }

/-- The degraded (metadata-only) record built in the `tikvidError` catch of
`fetchVideoData` (api.js:102-115): the TikWM record re-tagged for proxy
fallback mode. -/
def degradeRecord (m : CombinedRecord) : CombinedRecord :=
  { m with metadata := { m.metadata with
      downloadMode := some "proxy_fallback",
      source := "tikwm_with_proxy_fallback",
      note := some "TikVid proxy unavailable, downloads will try proxy then direct" } }

/-- The fallback record built in the outer catch of `fetchVideoData`
(api.js:117-129). -/
def fallbackRecord (m : CombinedRecord) : CombinedRecord :=
  { m with metadata := { m.metadata with
      downloadMode := some "fallback",
      source := "tikwm_fallback",
      note := some "Fallback mode: TikWM only with proxy attempts" } }

/-- The preview URLs of a record: the TikWM URLs preserved by fusion in
`originalUrls`, which for a metadata-only record are its own URL fields
(video-preview.js reads `data.originalUrls` with `data.play` etc. as the
final fallback). -/
def previewUrlsOf (r : CombinedRecord) : OriginalUrls :=
  match r.originalUrls with
  | some u => u
  | none => ⟨r.play, r.hdplay, r.wmplay, r.music⟩

/-- The per-kind URL actually used for downloading: the TikVid download URL
when fusion stored one, the record's own field otherwise (the priority
chain of video-preview.js `setupVideoDownload` / `setupVideoHDDownload` /
`setupAudioDownload`). -/
def downloadUrlsOf (r : CombinedRecord) : OriginalUrls :=
  match r.tikvidData with
  | some tv =>
      ⟨tv.downloadUrls.play.getD r.play,
       tv.downloadUrls.hdplay.getD r.hdplay,
       tv.downloadUrls.wmplay.getD r.wmplay,
       tv.downloadUrls.music.getD r.music⟩
  | none => ⟨r.play, r.hdplay, r.wmplay, r.music⟩

/-! ## URL validation and normalization

`validators.js validateTikTokUrl` and api.js `cleanUrl` parse the input with
the browser's `new URL(...)`.  A parsed URL is embedded structurally: the
parser itself is the browser's, so the functions below take the parsed
object.  The query is the ordered multiset of `searchParams` pairs. -/

/-- A parsed WHATWG URL, as far as the sources inspect it. -/
structure UrlObj where
  scheme : String
  host : String
  path : String
  params : List (String × String)
deriving DecidableEq, Repr

/-- `URL.prototype.toString()` for the fields modelled here. -/
def urlToString (u : UrlObj) : String :=
  u.scheme ++ "://" ++ u.host ++ u.path ++
    (if u.params.isEmpty then ""
     else "?" ++ String.intercalate "&" (u.params.map (fun p => p.1 ++ "=" ++ p.2)))

/-- constants.js `VALIDATION.TIKTOK_DOMAINS`. -/
def TIKTOK_DOMAINS : List String := ["tiktok.com", "vm.tiktok.com", "vt.tiktok.com"]

/-- The domain check in validators.js `validateTikTokUrl`: the lowercased
hostname equals an allow-listed domain or ends with `"." ++ domain`. -/
def matchesDomainAllowList (hostname : String) : Bool :=
  TIKTOK_DOMAINS.any (fun domain =>
    hostname = domain || strEndsWith hostname ("." ++ domain))

/-- constants.js `REGEX_PATTERNS.TIKTOK_URL`
(`^https?://(?:www\.|vm\.|vt\.|m\.)?tiktok\.com/.+` case-insensitive), read
off the structured URL: an http(s) scheme, one of the exact pattern hosts,
and at least one character after the slash that follows the host. -/
def tiktokUrlPatternTest (u : UrlObj) : Bool :=
  (lowerString u.scheme = "http" || lowerString u.scheme = "https") &&
  ["tiktok.com", "www.tiktok.com", "vm.tiktok.com", "vt.tiktok.com",
    "m.tiktok.com"].contains (lowerString u.host) &&
  (strStartsWith u.path "/" && (u.path.length > 1 || !u.params.isEmpty))

/-- validators.js `validateTikTokUrl` on a parsed URL: reject when the
lowercased hostname fails the domain allow-list, otherwise apply the
additional pattern check.  Returns `isValid`. -/
def validateTikTokUrl (u : UrlObj) : Bool :=
  let hostname := lowerString u.host
  if !matchesDomainAllowList hostname then false
  else tiktokUrlPatternTest u

/-- utils.js `isValidTikTokUrl`: only requires the hostname to contain one of
the TikTok domains as a substring (`String.prototype.includes`). -/
def utilsIsValidTikTokUrl (u : UrlObj) : Bool :=
  substrOf "tiktok.com" u.host || substrOf "vm.tiktok.com" u.host ||
    substrOf "vt.tiktok.com" u.host

/-- api.js `cleanUrl`: the tracking parameters removed before caching. -/
def paramsToRemove : List String := ["_r", "u_code", "preview_pb", "is_copy_url"]

/-- `URLSearchParams.prototype.delete`: remove every pair with the name. -/
def searchParamsDelete (ps : List (String × String)) (k : String) :
    List (String × String) :=
  ps.filter (fun p => p.1 ≠ k)

/-- api.js `cleanUrl` on a parsed URL: delete each tracking parameter in
turn; all other components are untouched. -/
def cleanUrl (u : UrlObj) : UrlObj :=
  { u with params := paramsToRemove.foldl searchParamsDelete u.params }

lemma foldl_searchParamsDelete (ks : List String) (ps : List (String × String)) :
    ks.foldl searchParamsDelete ps = ps.filter (fun p => decide (p.1 ∉ ks)) := by
  induction ks generalizing ps with
  | nil => simp
  | cons k ks ih =>
      rw [List.foldl_cons, ih, searchParamsDelete, List.filter_filter]
      apply List.filter_congr
      intro p _
      by_cases h1 : p.1 = k <;> by_cases h2 : p.1 ∈ ks <;> simp [h1, h2]

lemma downloads_pos_of_video_find {t : TikvidData} {p : DownloadEntry → Bool}
    {v : DownloadEntry} (h : (videoDownloadsOf t).find? p = some v) :
    0 < t.downloads.length := by
  have hv : v ∈ videoDownloadsOf t := List.mem_of_find?_eq_some h
  rw [videoDownloadsOf] at hv
  exact List.length_pos.2 (List.ne_nil_of_mem (List.mem_of_mem_filter hv))

lemma downloads_pos_of_audio_head {t : TikvidData} {a : DownloadEntry}
    (h : (audioDownloadsOf t).head? = some a) : 0 < t.downloads.length := by
  have ha : a ∈ audioDownloadsOf t := by
    rcases he : audioDownloadsOf t with _ | ⟨b, rest⟩
    · rw [he] at h; simp at h
    · rw [he] at h
      simp only [List.head?_cons, Option.some.injEq] at h
      rw [h] at he ⊢
      exact List.mem_cons_self a rest
  rw [audioDownloadsOf] at ha
  exact List.length_pos.2 (List.ne_nil_of_mem (List.mem_of_mem_filter ha))

lemma audioDownloads_nil_of_find_none {t : TikvidData}
    (h : t.downloads.find? (fun d => d.dtype = "audio") = none) :
    audioDownloadsOf t = [] := by
  rw [audioDownloadsOf, List.filter_eq_nil_iff]
  intro a ha
  have := List.find?_eq_none.1 h a ha
  simpa using this

lemma tikvidUrls_music_none_of_no_audio {t : TikvidData}
    (h : t.downloads.find? (fun d => d.dtype = "audio") = none) :
    (tikvidUrlsOf t).music = none := by
  have hfil := audioDownloads_nil_of_find_none h
  rw [tikvidUrlsOf]
  by_cases hp : t.downloads.length > 0
  · simp [hp, hfil]
  · simp [hp]

lemma musicInfoOf_eq_fallback {tikwm : CombinedRecord} {tikvid : TikvidData}
    (htm : ∀ mi, tikwm.music_info = some mi → mi.play = "") :
    musicInfoOf tikwm tikvid = musicInfoFallback tikwm tikvid := by
  rcases h : tikwm.music_info with _ | mi
  · rw [musicInfoOf, h]
  · have hp := htm mi h
    rw [musicInfoOf, h]
    simp [hp]

/-! ## fetchVideoData (api.js:57-135)

The two provider calls are oracles: `metaResult`/`metaRetryResult` give the
outcome of the first and (in the outer catch) second TikWM fetch, `dlResult`
the TikVid fetch.  `none` is a thrown error.  `isValidUrl` models success of
`new URL(...)` inside `validateApiResponse`.  The result records which data
came back, the updated cache, and whether the download-link provider was
contacted at all. -/

/-- utils.js `isNotEmpty`: a string with non-whitespace content.  JS `trim`
is taken over the characters. -/
def isNotEmpty (s : String) : Bool :=
  ((s.toList.dropWhile Char.isWhitespace).reverse.dropWhile
    Char.isWhitespace).length > 0

/-- validators.js `validateApiResponse`: a non-empty `title`; `play`,
`music` and every image URL must parse when present. -/
def validateApiResponse (isValidUrl : String → Bool) (r : CombinedRecord) :
    Bool :=
  isNotEmpty r.title &&
  (r.play = "" || isValidUrl r.play) &&
  (r.music = "" || isValidUrl r.music) &&
  ((r.images.filter (fun img => !isValidUrl img)).length = 0)

/-- Outcome of one `fetchVideoData` call. -/
structure FetchResult where
  record : Option CombinedRecord
  cache : Cache CombinedRecord
  contactedDownloadProvider : Bool
deriving Repr

/-- api.js `fetchVideoData(url)`: validate (utils.js `isValidTikTokUrl`),
clean the URL, consult the cache; on a miss fetch TikWM metadata, then
TikVid download links; fuse and validate in the hybrid path, or degrade to
the re-tagged metadata record when the TikVid call (or validation) fails;
the outer catch refetches TikWM and tags the fallback.  Every produced
record is cached under the cleaned URL. -/
def fetchVideoData (cache : Cache CombinedRecord) (u : UrlObj) (now : Nat)
    (metaResult : Option CombinedRecord) (dlResult : Option TikvidData)
    (metaRetryResult : Option CombinedRecord) (isValidUrl : String → Bool) :
    FetchResult :=
  if !utilsIsValidTikTokUrl u then ⟨none, cache, false⟩
  else
    let cleanKey := urlToString (cleanUrl u)
    match getFromCache cache cleanKey now with
    | (some cached, c₁) => ⟨some cached, c₁, false⟩
    | (none, c₁) =>
      match metaResult with
      | none =>
          -- outer catch: retry TikWM only
          match metaRetryResult with
          | none => ⟨none, c₁, false⟩
          | some m₂ =>
              let fb := fallbackRecord m₂
              ⟨some fb, saveToCache c₁ cleanKey fb now, false⟩
      | some m =>
          match dlResult with
          | none =>
              -- tikvidError catch: degrade to metadata-only
              let d := degradeRecord m
              ⟨some d, saveToCache c₁ cleanKey d now, true⟩
          | some dv =>
              let enhanced := combineMetadataAndDownloads m dv cleanKey
              if validateApiResponse isValidUrl enhanced then
                ⟨some enhanced, saveToCache c₁ cleanKey enhanced now, true⟩
              else
                -- validation failure is thrown inside the inner try and
                -- lands in the same tikvidError catch
                let d := degradeRecord m
                ⟨some d, saveToCache c₁ cleanKey d now, true⟩

/-! ## RateLimiter (api.js `waitForRateLimit`, constants.js `API_CONFIG.RATE_LIMIT`)

The limiter's state is `lastRequestTime` and the sliding window
`requestTimestamps`.  The single-threaded model makes the `await`ed delays
explicit: the effective execution time is `Date.now()` at entry plus the
delays taken, and `lastRequestTime` is set to `Date.now()` read again after
the delays. -/

/-- `API_CONFIG.RATE_LIMIT.MIN_INTERVAL` (2 seconds between requests). -/
def MIN_INTERVAL : Nat := 2000

/-- `API_CONFIG.RATE_LIMIT.MAX_REQUESTS_PER_MINUTE`. -/
def MAX_REQUESTS_PER_MINUTE : Nat := 30

/-- Rate limiter state (`this.lastRequestTime`, `this.requestTimestamps`). -/
structure RateState where
  lastRequestTime : Nat
  requestTimestamps : List Nat

/-- The first delay in `waitForRateLimit`: if less than `MIN_INTERVAL` has
passed since the last request, wait the remainder. -/
def minIntervalWait (st : RateState) (now : Nat) : Nat :=
  let timeSinceLastRequest := now - st.lastRequestTime
  if timeSinceLastRequest < MIN_INTERVAL then MIN_INTERVAL - timeSinceLastRequest
  else 0

/-- The second delay in `waitForRateLimit`: prune timestamps older than one
minute, and if the window is still at `MAX_REQUESTS_PER_MINUTE`, wait until
the oldest timestamp falls out of the window. -/
def windowWait (st : RateState) (now : Nat) : Nat :=
  let ts := st.requestTimestamps.filter (fun t => now - t < 60000)
  if ts.length ≥ MAX_REQUESTS_PER_MINUTE then
    let oldestRequest := ts.headD 0
    let waitTime := 60000 - (now - oldestRequest)
    if waitTime > 0 then waitTime else 0
  else 0

/-- api.js `waitForRateLimit()`: returns the effective execution time (the
moment after all delays, when `lastRequestTime` is recorded and pushed) and
the new limiter state. -/
def waitForRateLimit (st : RateState) (now : Nat) : Nat × RateState :=
  let exec := now + minIntervalWait st now + windowWait st now
  (exec,
   { lastRequestTime := exec,
     requestTimestamps :=
       st.requestTimestamps.filter (fun t => now - t < 60000) ++ [exec] })

/-! ## Retry policy (utils.js `retryAsync`)

`retryAsync(fn, maxRetries, baseDelay)` runs `fn` up to `maxRetries` times,
sleeping `baseDelay * 2^i` after the i-th failure except the last.  The
model returns the result, the number of attempts consumed, and the list of
backoff delays taken.  `fn`'s outcome on the n-th call is the oracle's
value at `n`. -/

def retryGo {α : Type} (f : Nat → Except String α) (maxRetries baseDelay : Nat) :
    List Nat → String → List Nat → Except String α × Nat × List Nat
  | [], lastErr, delays => (.error lastErr, maxRetries, delays)
  | i :: rest, _, delays =>
    match f i with
    | .ok a => (.ok a, i + 1, delays)
    | .error e =>
        retryGo f maxRetries baseDelay rest e
          (delays ++ if i < maxRetries - 1 then [baseDelay * 2 ^ i] else [])

/-- utils.js `retryAsync`. -/
def retryAsync {α : Type} (f : Nat → Except String α)
    (maxRetries baseDelay : Nat) : Except String α × Nat × List Nat :=
  retryGo f maxRetries baseDelay (List.range maxRetries) "" []

/-! ## MediaDownloader (media-downloader.js)

The three transports of `attemptDownload` — `downloadViaTikVidProxy`,
`downloadViaFetch`, `createDirectDownloadLink` — are oracles indexed by the
invocation count (the direct-link oracle is shared with the extra call in
`downloadMedia`'s catch). -/

/-- A transport method of `MediaDownloader.attemptDownload`, in chain order. -/
inductive MethodTag where
  | tikvidProxy
  | fetchBlob
  | directLink
deriving DecidableEq, Repr

/-- Outcomes of the three transports, per invocation. -/
structure MediaOracles where
  tikvidProxy : Nat → Except String Unit
  fetchBlob : Nat → Except String Unit
  directLink : Nat → Except String Unit

/-- The error thrown at media-downloader.js:93 when a TikVid URL hits a
connectivity failure. -/
def tikvidUnavailableMsg : String :=
  "❌ TikVid API không khả dụng!\n\n🔄 Vui lòng thử lại sau hoặc kiểm tra kết nối mạng.\n\n🌐 API: https://cors-kimizk.vercel.app"

/-- The error thrown at media-downloader.js:100 when every method failed. -/
def allMethodsFailedMsg : String :=
  "❌ Không thể tải file qua các phương thức có sẵn.\n\n🔄 Vui lòng thử lại sau hoặc kiểm tra:\n• Kết nối mạng\n• URL có hợp lệ không\n• Server API có hoạt động không"

/-- The connectivity test at media-downloader.js:92. -/
def isConnectivityError (e : String) : Bool :=
  substrOf "ERR_CONNECTION_REFUSED" e || substrOf "Failed to fetch" e

/-- media-downloader.js `isTikVidUrl`. -/
def isTikVidUrl (url : String) : Bool :=
  substrOf "dl.snapcdn.app" url || substrOf "tikvid.io" url ||
    substrOf "muscdn.com" url

/-- media-downloader.js `attemptDownload(url, filename)`: the three methods
(identical list for TikVid and other URLs) tried strictly in order, each
wrapped in `retryAsync(method, 2, 1000)`; a connectivity error on a TikVid
URL aborts the chain with `tikvidUnavailableMsg`; when all methods fail the
generic failure is thrown.  Returns the result, the trace of methods tried
(tag, attempts used, backoff delays) and the number of direct-link oracle
invocations consumed. -/
def attemptDownload (url : String) (o : MediaOracles) :
    Except String Unit × List (MethodTag × Nat × List Nat) × Nat :=
  match retryAsync o.tikvidProxy 2 1000 with
  | (.ok _, a₁, d₁) => (.ok (), [(.tikvidProxy, a₁, d₁)], 0)
  | (.error e₁, a₁, d₁) =>
    if isTikVidUrl url && isConnectivityError e₁ then
      (.error tikvidUnavailableMsg, [(.tikvidProxy, a₁, d₁)], 0)
    else
      match retryAsync o.fetchBlob 2 1000 with
      | (.ok _, a₂, d₂) =>
          (.ok (), [(.tikvidProxy, a₁, d₁), (.fetchBlob, a₂, d₂)], 0)
      | (.error e₂, a₂, d₂) =>
        if isTikVidUrl url && isConnectivityError e₂ then
          (.error tikvidUnavailableMsg,
            [(.tikvidProxy, a₁, d₁), (.fetchBlob, a₂, d₂)], 0)
        else
          match retryAsync o.directLink 2 1000 with
          | (.ok _, a₃, d₃) =>
              (.ok (), [(.tikvidProxy, a₁, d₁), (.fetchBlob, a₂, d₂),
                (.directLink, a₃, d₃)], a₃)
          | (.error e₃, a₃, d₃) =>
              if isTikVidUrl url && isConnectivityError e₃ then
                (.error tikvidUnavailableMsg,
                  [(.tikvidProxy, a₁, d₁), (.fetchBlob, a₂, d₂),
                    (.directLink, a₃, d₃)], a₃)
              else
                (.error allMethodsFailedMsg,
                  [(.tikvidProxy, a₁, d₁), (.fetchBlob, a₂, d₂),
                    (.directLink, a₃, d₃)], a₃)

/-- media-downloader.js `downloadMedia(url, filename, type)`: reject empty
or `'#'` URLs; run `attemptDownload`; on its failure the catch block builds
the direct download link once more (fire-and-forget), so the overall
operation only fails if that construction itself throws. -/
def downloadMedia (url : String) (o : MediaOracles) :
    Except String Unit × List (MethodTag × Nat × List Nat) :=
  if url = "" || url = "#" then (.error "Invalid URL", [])
  else
    match attemptDownload url o with
    | (.ok _, tr, _) => (.ok (), tr)
    | (.error _, tr, lc) =>
        match o.directLink lc with
        | .ok _ => (.ok (), tr ++ [(.directLink, 1, [])])
        | .error e => (.error e, tr ++ [(.directLink, 1, [])])

/-! ## ImageDownloader: bulk ZIP creation (image-downloader.js)

`processImageForZip` retries a CORS fetch up to 3 times, falling back to the
canvas re-encode on the last attempt for CORS-classified errors;
`downloadAllImagesAsZip` drives batches of `CONCURRENT_DOWNLOADS = 3`,
matches the settled results back to their global index, packs the successes
as `image_<n>.jpg` and fails only when no image succeeded. -/

def exceptIsOk {ε α : Type} : Except ε α → Bool
  | .ok _ => true
  | .error _ => false

def exceptToOption {ε α : Type} : Except ε α → Option α
  | .ok a => some a
  | .error _ => none

/-- A binary body, as far as the sources inspect it (`size`, MIME `type`). -/
structure Blob where
  size : Nat
  mime : String
deriving DecidableEq, Repr

/-- validators.js `validateImageBlob`: non-empty and an `image/` MIME type. -/
def validateImageBlob (b : Blob) : Bool :=
  !(b.size = 0) && strStartsWith b.mime "image/"

/-- The error message `validateImageBlob` reports. -/
def validateImageBlobError (b : Blob) : String :=
  if b.size = 0 then "File hình ảnh trống" else "File không phải là hình ảnh"

/-- An HTTP response as read by `processImageForZip`. -/
structure FetchResp where
  ok : Bool
  status : Nat
  blob : Blob
deriving DecidableEq, Repr

/-- The network/DOM behaviour of one image: the fetch outcome per attempt
(an `error` is a thrown network/timeout failure) and the canvas re-encode
outcome. -/
structure ImgOracle where
  fetchA : Nat → Except String FetchResp
  canvas : Except String Blob

/-- One attempt of the `processImageForZip` loop body: a thrown fetch error
propagates; an HTTP error status or a failed blob validation throws; a
valid blob is returned. -/
def imgAttemptOutcome (o : ImgOracle) (attempt : Nat) : Except String Blob :=
  match o.fetchA attempt with
  | .error e => .error e
  | .ok resp =>
      if resp.ok then
        if validateImageBlob resp.blob then .ok resp.blob
        else .error (validateImageBlobError resp.blob)
      else .error ("HTTP " ++ toString resp.status)

/-- The retry loop of `processImageForZip` (`maxRetries = 3`): on the last
attempt (index 2) a CORS-classified error tries the canvas fallback; after
the loop the last error is thrown. -/
def processAttempts (o : ImgOracle) : List Nat → String → Except String Blob
  | [], lastErr => .error lastErr
  | a :: rest, _ =>
      match imgAttemptOutcome o a with
      | .ok b => .ok b
      | .error e =>
          if a = 2 && substrOf "CORS" e then
            match o.canvas with
            | .ok b => .ok b
            | .error _ => processAttempts o rest e
          else processAttempts o rest e

/-- image-downloader.js `processImageForZip(imageUrl, index)`. -/
def processImageForZip (o : ImgOracle) : Except String Blob :=
  processAttempts o [0, 1, 2] ""

/-- `DOWNLOAD_CONFIG.CONCURRENT_DOWNLOADS = 3`: the fixed batch width of the
ZIP loop (`images.slice(i, i + 3)`). -/
def chunks3 {α : Type} : List α → List (List α)
  | [] => []
  | [a] => [[a]]
  | [a, b] => [[a, b]]
  | a :: b :: c :: rest => [a, b, c] :: chunks3 rest

/-- The ZIP entry name `image_${globalIndex + 1}.jpg`. -/
def zipEntryName (i : Nat) : String := "image_" ++ toString (i + 1) ++ ".jpg"

/-- The files collected into the ZIP folder: per batch, per settled result
in order, the fulfilled blobs under the global-index entry name. -/
def zipFiles (images : List ImgOracle) : List (String × Blob) :=
  (((chunks3 images.enum).map (fun batch =>
      batch.map (fun p => (p.1, processImageForZip p.2)))).flatten).filterMap
    (fun p => (exceptToOption p.2).map (fun b => (zipEntryName p.1, b)))

/-- image-downloader.js `downloadAllImagesAsZip(images)`: reject an empty
list; process batches; throw when `successCount === 0`; otherwise the ZIP
is generated and the toast reports `successCount/totalImages`. -/
def downloadAllImagesAsZip (images : List ImgOracle) :
    Except String (List (String × Blob) × Nat × Nat) :=
  if images.length = 0 then .error "No images to download"
  else if (zipFiles images).length = 0 then
    .error "Không thể xử lý ảnh nào cho file ZIP"
  else .ok (zipFiles images, (zipFiles images).length, images.length)

lemma chunks3_map_flatten {α β : Type} (f : α → β) :
    ∀ l : List α, ((chunks3 l).map (fun batch => batch.map f)).flatten = l.map f
  | [] => rfl
  | [_] => rfl
  | [_, _] => rfl
  | a :: b :: c :: rest => by
      simp only [chunks3, List.map_cons, List.flatten_cons]
      rw [chunks3_map_flatten f rest]
      rfl

lemma zipFiles_eq (images : List ImgOracle) :
    zipFiles images = images.enum.filterMap (fun p =>
      (exceptToOption (processImageForZip p.2)).map
        (fun b => (zipEntryName p.1, b))) := by
  rw [zipFiles, chunks3_map_flatten, List.filterMap_map]
  rfl

lemma length_filterMap_option_enumFrom {α β γ : Type} (g : α → Option β)
    (h : Nat → β → γ) :
    ∀ (n : Nat) (l : List α),
    ((List.enumFrom n l).filterMap (fun p => (g p.2).map (h p.1))).length
      = (l.filter (fun a => (g a).isSome)).length
  | _, [] => rfl
  | n, a :: rest => by
      rcases hg : g a with _ | b <;>
        simp [List.enumFrom, hg, length_filterMap_option_enumFrom g h (n + 1) rest]

lemma isSome_exceptToOption {ε α : Type} (x : Except ε α) :
    (exceptToOption x).isSome = exceptIsOk x := by
  cases x <;> rfl

lemma zipFiles_length (images : List ImgOracle) :
    (zipFiles images).length =
      (images.filter (fun a => exceptIsOk (processImageForZip a))).length := by
  rw [zipFiles_eq]
  have h := length_filterMap_option_enumFrom
    (fun a => exceptToOption (processImageForZip a))
    (fun i b => (zipEntryName i, b)) 0 images
  have henum : images.enum = List.enumFrom 0 images := rfl
  rw [henum, h]
  congr 1
  apply List.filter_congr
  intro a _
  exact isSome_exceptToOption (processImageForZip a)

/-! ## Sequential individual image downloads
(download.js `downloadAllImagesIndividually`, image-downloader.js
`downloadSingleImage` / `attemptImageDownload`)

Each image runs the four-method chain, each method under
`retryAsync(method, 1, 500)`; `downloadSingleImage` catches a chain failure
and falls back to opening the image in a new tab, so it always resolves.
The driver loop awaits each image in turn and sleeps 500ms between
consecutive items; its own try/catch skips a failing item. -/

/-- Outcomes of the four methods of `attemptImageDownload` for one image:
`downloadImageViaProxy`, `downloadImageViaFetch`, `createDirectDownload`,
`downloadImageViaCanvas` (each is invoked at most once since
`retryAsync(·, 1, 500)` makes a single attempt). -/
structure ImageMethodOracles where
  viaProxy : Except String Unit
  viaFetch : Except String Unit
  directLink : Except String Unit
  viaCanvas : Except String Unit
deriving Repr

/-- image-downloader.js `attemptImageDownload`: the four methods in order,
each under `retryAsync(method, 1, 500)`; all failing throws. -/
def attemptImageDownload (o : ImageMethodOracles) : Except String Unit :=
  match (retryAsync (fun _ => o.viaProxy) 1 500).1 with
  | .ok _ => .ok ()
  | .error _ =>
    match (retryAsync (fun _ => o.viaFetch) 1 500).1 with
    | .ok _ => .ok ()
    | .error _ =>
      match (retryAsync (fun _ => o.directLink) 1 500).1 with
      | .ok _ => .ok ()
      | .error _ =>
        match (retryAsync (fun _ => o.viaCanvas) 1 500).1 with
        | .ok _ => .ok ()
        | .error _ => .error "All image download methods failed"

/-- image-downloader.js `downloadSingleImage`: the chain's failure is caught
and the image opened in a new tab, so the call always resolves; the Bool
records whether the method chain itself succeeded. -/
def downloadSingleImage (o : ImageMethodOracles) : Bool :=
  match attemptImageDownload o with
  | .ok _ => true
  | .error _ => false

/-- One observable step of the sequential download loop. -/
inductive SeqEvent where
  | download (index : Nat) (methodsSucceeded : Bool)
  | delay (ms : Nat)
deriving DecidableEq, Repr

/-- `SeqEvent.download` projection. -/
def downloadIndex? : SeqEvent → Option Nat
  | .download i _ => some i
  | .delay _ => none

/-- `SeqEvent.delay` test. -/
def isDelay : SeqEvent → Bool
  | .delay _ => true
  | .download _ _ => false

/-- The loop body of download.js `downloadAllImagesIndividually`: download
image `i` (its failure is caught by the surrounding try/catch and the loop
continues), then sleep 500ms when `i < images.length - 1`. -/
def seqGo : List ImageMethodOracles → Nat → Nat → List SeqEvent
  | [], _, _ => []
  | o :: rest, i, total =>
      SeqEvent.download i (downloadSingleImage o) ::
        ((if i < total - 1 then [SeqEvent.delay 500] else []) ++
          seqGo rest (i + 1) total)

/-- download.js `downloadAllImagesIndividually` as its event trace. -/
def downloadAllImagesIndividually (images : List ImageMethodOracles) :
    List SeqEvent :=
  seqGo images 0 images.length

lemma seqGo_filterMap_downloadIndex :
    ∀ (l : List ImageMethodOracles) (i total : Nat),
    (seqGo l i total).filterMap downloadIndex? = List.range' i l.length
  | [], _, _ => rfl
  | o :: rest, i, total => by
      by_cases hc : i < total - 1 <;>
        simp [seqGo, hc, downloadIndex?, List.range'_succ,
          seqGo_filterMap_downloadIndex rest (i + 1) total]

lemma seqGo_filter_delay :
    ∀ (l : List ImageMethodOracles) (i total : Nat), total = i + l.length →
    (seqGo l i total).filter isDelay =
      List.replicate (l.length - 1) (SeqEvent.delay 500)
  | [], _, _, _ => rfl
  | o :: rest, i, total, h => by
      rcases rest with _ | ⟨r, rs⟩
      · have hc : ¬ i < total - 1 := by simp at h; omega
        simp [seqGo, hc, isDelay]
      · have hc : i < total - 1 := by simp at h; omega
        have hrec := seqGo_filter_delay (r :: rs) (i + 1) total (by simp at h ⊢; omega)
        rw [show seqGo (o :: r :: rs) i total =
            SeqEvent.download i (downloadSingleImage o) ::
              ((if i < total - 1 then [SeqEvent.delay 500] else []) ++
                seqGo (r :: rs) (i + 1) total) from rfl,
          if_pos hc]
        simp only [List.filter_cons, List.filter_append, List.length_cons]
        rw [hrec]
        simp [isDelay, List.replicate_succ]

lemma seqGo_getLast :
    ∀ (l : List ImageMethodOracles) (i total : Nat), l ≠ [] →
      total = i + l.length →
    ∃ b, (seqGo l i total).getLast? = some (SeqEvent.download (total - 1) b)
  | [], _, _, hne, _ => absurd rfl hne
  | [o], i, total, _, h => by
      have hc : ¬ i < total - 1 := by simp at h; omega
      have hi : i = total - 1 := by simp at h; omega
      refine ⟨downloadSingleImage o, ?_⟩
      simp [seqGo, hc, hi]
  | o :: r :: rs, i, total, _, h => by
      obtain ⟨b, hb⟩ := seqGo_getLast (r :: rs) (i + 1) total (by simp)
        (by simp at h ⊢; omega)
      refine ⟨b, ?_⟩
      have hne₂ : seqGo (r :: rs) (i + 1) total ≠ [] := by simp [seqGo]
      have hne₃ : (if i < total - 1 then [SeqEvent.delay 500] else []) ++
          seqGo (r :: rs) (i + 1) total ≠ [] := by
        intro hx
        exact hne₂ (List.append_eq_nil.1 hx).2
      rw [seqGo,
        show SeqEvent.download i (downloadSingleImage o) ::
            ((if i < total - 1 then [SeqEvent.delay 500] else []) ++
              seqGo (r :: rs) (i + 1) total)
          = [SeqEvent.download i (downloadSingleImage o)] ++
            ((if i < total - 1 then [SeqEvent.delay 500] else []) ++
              seqGo (r :: rs) (i + 1) total) from rfl,
        List.getLast?_append_of_ne_nil _ hne₃,
        List.getLast?_append_of_ne_nil _ hne₂, hb]

end Downtik

namespace Downtik

/-- C5: storing a key-value pair in the response cache and immediately
retrieving the same key returns the same value; retrieving more than 5
minutes (the TTL) after the store returns none and removes the expired
entry; and inserting a 51st distinct key evicts exactly the first-inserted
key (FIFO by insertion order).  The hypotheses are the reachable-state
invariant of `requestCache`: unique keys and at most 50 entries. -/
theorem responseCache_put_get_ttl_evict {α : Type} (c : Cache α) (k : String)
    (v : α) (t t' : Nat)
    (hnd : (cacheKeys c).Nodup) (hle : c.length ≤ 50) :
    (getFromCache (saveToCache c k v t) k t).1 = some v ∧
    (t + cacheTimeout ≤ t' →
      (getFromCache (saveToCache c k v t) k t').1 = none ∧
      mapGet (getFromCache (saveToCache c k v t) k t').2 k = none) ∧
    (mapGet c k = none → c.length = 50 →
      saveToCache c k v t = c.tail ++ [(k, t, v)]) := by
  obtain ⟨hget, hnd', _⟩ := saveToCache_spec c k v t hnd hle
  refine ⟨?_, ?_, ?_⟩
  · have hlt : t - t < cacheTimeout := by unfold cacheTimeout; omega
    simp [getFromCache, hget, hlt, cacheTimeout]
  · intro hexp
    have hnlt : ¬ t' - t < cacheTimeout := by unfold cacheTimeout at *; omega
    refine ⟨by simp [getFromCache, hget, hnlt], ?_⟩
    simp only [getFromCache, hget, if_neg hnlt]
    exact mapGet_mapDelete_of_nodup _ k hnd'
  · intro hfresh hlen50
    exact saveToCache_of_fresh_full c k v t ((mapGet_eq_none_iff c k).1 hfresh) hlen50

/-- Witness for C5 on a concrete full store: immediate retrieval hits,
retrieval after the TTL misses, and the 51st insertion drops the
first-inserted entry. -/
theorem responseCache_put_get_ttl_evict_witness :
    (getFromCache (saveToCache fullStore "k" 7 1000) "k" 1000).1 = some 7 ∧
    (getFromCache (saveToCache fullStore "k" 7 1000) "k" 301000).1 = none ∧
    saveToCache fullStore "k" 7 1000 = fullStore.tail ++ [("k", 1000, 7)] := by
  have h := responseCache_put_get_ttl_evict (α := Nat) fullStore "k" 7 1000 301000
    (by decide) (by decide)
  exact ⟨h.1, (h.2.1 (by decide)).1, h.2.2 (by decide) (by decide)⟩

/-- C7: if a second `waitForRateLimit` acquisition begins less than
`MIN_INTERVAL` (2000ms) after the first request was recorded, it delays by
exactly the remainder, so its effective execution time is at least 2000ms
after the first request's recorded time. -/
theorem rateLimiter_min_interval (st : RateState) (now₁ now₂ : Nat)
    (h₁ : (waitForRateLimit st now₁).1 ≤ now₂)
    (h₂ : now₂ < (waitForRateLimit st now₁).1 + MIN_INTERVAL) :
    minIntervalWait (waitForRateLimit st now₁).2 now₂ =
      MIN_INTERVAL - (now₂ - (waitForRateLimit st now₁).1) ∧
    (waitForRateLimit st now₁).1 + MIN_INTERVAL ≤
      (waitForRateLimit (waitForRateLimit st now₁).2 now₂).1 := by
  set e₁ := (waitForRateLimit st now₁).1 with he₁
  have hlast : ((waitForRateLimit st now₁).2).lastRequestTime = e₁ := rfl
  have hwait : minIntervalWait (waitForRateLimit st now₁).2 now₂ =
      MIN_INTERVAL - (now₂ - e₁) := by
    rw [minIntervalWait, hlast]
    have : now₂ - e₁ < MIN_INTERVAL := by unfold MIN_INTERVAL at *; omega
    simp [this]
  refine ⟨hwait, ?_⟩
  have hexec : (waitForRateLimit (waitForRateLimit st now₁).2 now₂).1 =
      now₂ + minIntervalWait (waitForRateLimit st now₁).2 now₂ +
        windowWait (waitForRateLimit st now₁).2 now₂ := rfl
  rw [hexec, hwait]
  unfold MIN_INTERVAL at *
  omega

/-- Witness for C7: first acquisition at t=5000 executes at 5000; a second
acquisition at t=6000 waits the 1000ms remainder and executes at 7000. -/
theorem rateLimiter_min_interval_witness :
    (waitForRateLimit (waitForRateLimit ⟨0, []⟩ 5000).2 6000).1 = 7000 ∧
    (waitForRateLimit ⟨0, []⟩ 5000).1 + MIN_INTERVAL ≤
      (waitForRateLimit (waitForRateLimit ⟨0, []⟩ 5000).2 6000).1 := by
  refine ⟨by decide, ?_⟩
  exact (rateLimiter_min_interval ⟨0, []⟩ 5000 6000 (by decide) (by decide)).2

/-- C6: a parsed input whose hostname fails the TikTok domain allow-list
(exact or dot-suffix match, case-insensitive) is rejected by
`validateTikTokUrl`; and normalization (`cleanUrl`) removes exactly the
known tracking parameters (`_r`, `u_code`, `preview_pb`, `is_copy_url`)
while leaving scheme, host, path and the other parameters unchanged, so in
particular no `_r=` parameter survives. -/
theorem urlValidation_rejects_and_cleanUrl_strips (u : UrlObj) :
    (matchesDomainAllowList (lowerString u.host) = false →
      validateTikTokUrl u = false) ∧
    (cleanUrl u).params.all (fun p => decide (p.1 ∉ paramsToRemove)) = true ∧
    (cleanUrl u).params = u.params.filter (fun p => decide (p.1 ∉ paramsToRemove)) ∧
    (cleanUrl u).scheme = u.scheme ∧ (cleanUrl u).host = u.host ∧
    (cleanUrl u).path = u.path := by
  have hfil : (cleanUrl u).params =
      u.params.filter (fun p => decide (p.1 ∉ paramsToRemove)) := by
    rw [cleanUrl]
    exact foldl_searchParamsDelete paramsToRemove u.params
  refine ⟨?_, ?_, hfil, rfl, rfl, rfl⟩
  · intro hrej
    rw [validateTikTokUrl]
    simp [hrej]
  · rw [hfil, List.all_eq_true]
    intro p hp
    exact (List.mem_filter.1 hp).2

/-- Witness for C6: `https://evil-tiktok.example/x` (hostname outside the
allow-list) is rejected, and cleaning
`https://www.tiktok.com/@user/video/123?_r=1` drops the `_r` parameter. -/
theorem urlValidation_rejects_and_cleanUrl_strips_witness :
    validateTikTokUrl ⟨"https", "evil-tiktok.example", "/x", []⟩ = false ∧
    (cleanUrl ⟨"https", "www.tiktok.com", "/@user/video/123", [("_r", "1")]⟩).params
      = [] := by
  constructor
  · exact (urlValidation_rejects_and_cleanUrl_strips
      ⟨"https", "evil-tiktok.example", "/x", []⟩).1 (by decide)
  · rw [(urlValidation_rejects_and_cleanUrl_strips
      ⟨"https", "www.tiktok.com", "/@user/video/123", [("_r", "1")]⟩).2.2.1]
    decide

/-- C1: fusion preserves the metadata provider's own media URLs as the
record's preview URLs (never overwritten by TikVid URLs), while per media
kind the download-link provider's URL, when present, is the one stored for
downloading; in particular the fused HD download URL is the HD entry's URL
while the standard preview URL is the metadata provider's own play URL. -/
theorem fusion_preview_vs_download_urls (tikwm : CombinedRecord)
    (tikvid : TikvidData) (originalUrl : String) :
    (combineMetadataAndDownloads tikwm tikvid originalUrl).originalUrls =
      some ⟨tikwm.play, tikwm.hdplay, tikwm.wmplay, tikwm.music⟩ ∧
    previewUrlsOf (combineMetadataAndDownloads tikwm tikvid originalUrl) =
      ⟨tikwm.play, tikwm.hdplay, tikwm.wmplay, tikwm.music⟩ ∧
    (previewUrlsOf (combineMetadataAndDownloads tikwm tikvid originalUrl)).play
      = tikwm.play ∧
    (combineMetadataAndDownloads tikwm tikvid originalUrl).play = tikwm.play ∧
    (combineMetadataAndDownloads tikwm tikvid originalUrl).hdplay = tikwm.hdplay ∧
    (combineMetadataAndDownloads tikwm tikvid originalUrl).wmplay = tikwm.wmplay ∧
    (combineMetadataAndDownloads tikwm tikvid originalUrl).music = tikwm.music ∧
    (∀ v, (videoDownloadsOf tikvid).find? (fun d => substrOf "HD" d.quality) = some v →
      (downloadUrlsOf (combineMetadataAndDownloads tikwm tikvid originalUrl)).hdplay
        = v.url) ∧
    (∀ v, (videoDownloadsOf tikvid).find? (fun d => substrOf "[1]" d.quality) = some v →
      (downloadUrlsOf (combineMetadataAndDownloads tikwm tikvid originalUrl)).play
        = v.url) ∧
    (∀ v, (videoDownloadsOf tikvid).find? (fun d => substrOf "[2]" d.quality) = some v →
      (downloadUrlsOf (combineMetadataAndDownloads tikwm tikvid originalUrl)).wmplay
        = v.url) ∧
    (∀ a, (audioDownloadsOf tikvid).head? = some a →
      (downloadUrlsOf (combineMetadataAndDownloads tikwm tikvid originalUrl)).music
        = a.url) := by
  refine ⟨rfl, rfl, rfl, rfl, rfl, rfl, rfl, ?_, ?_, ?_, ?_⟩
  · intro v hv
    have hpos := downloads_pos_of_video_find hv
    simp [downloadUrlsOf, combineMetadataAndDownloads, tikvidUrlsOf, hpos, hv]
  · intro v hv
    have hpos := downloads_pos_of_video_find hv
    simp [downloadUrlsOf, combineMetadataAndDownloads, tikvidUrlsOf, hpos, hv]
  · intro v hv
    have hpos := downloads_pos_of_video_find hv
    simp [downloadUrlsOf, combineMetadataAndDownloads, tikvidUrlsOf, hpos, hv]
  · intro a ha
    have hpos := downloads_pos_of_audio_head ha
    simp [downloadUrlsOf, combineMetadataAndDownloads, tikvidUrlsOf, hpos, ha]

/-- Witness for C1: a metadata payload with its own play URL and a
download-link payload with an HD entry; the fused record stores the HD
entry's URL for downloading while the standard preview URL stays the
metadata play URL. -/
theorem fusion_preview_vs_download_urls_witness :
    (downloadUrlsOf (combineMetadataAndDownloads
      { play := "https://tikwm.example/play.mp4",
        hdplay := "https://tikwm.example/hd.mp4" }
      { downloads := [⟨"video", "HD [1080p]", "https://tikvid.example/dl-hd.mp4"⟩] }
      "https://www.tiktok.com/@u/video/1")).hdplay
      = "https://tikvid.example/dl-hd.mp4" ∧
    (previewUrlsOf (combineMetadataAndDownloads
      { play := "https://tikwm.example/play.mp4",
        hdplay := "https://tikwm.example/hd.mp4" }
      { downloads := [⟨"video", "HD [1080p]", "https://tikvid.example/dl-hd.mp4"⟩] }
      "https://www.tiktok.com/@u/video/1")).play
      = "https://tikwm.example/play.mp4" := by
  have h := fusion_preview_vs_download_urls
    { play := "https://tikwm.example/play.mp4",
      hdplay := "https://tikwm.example/hd.mp4" }
    { downloads := [⟨"video", "HD [1080p]", "https://tikvid.example/dl-hd.mp4"⟩] }
    "https://www.tiktok.com/@u/video/1"
  exact ⟨h.2.2.2.2.2.2.2.1
    ⟨"video", "HD [1080p]", "https://tikvid.example/dl-hd.mp4"⟩ (by decide),
    h.2.2.1⟩

/-- C8: the fused record's music info follows the strict precedence:
the metadata provider's own music object when present with a playable URL;
otherwise an object synthesized from the download-link provider's audio
entry; otherwise a minimal object from the leftover audio URL; otherwise
null when no audio URL exists anywhere. -/
theorem fusion_music_info_precedence (tikwm : CombinedRecord)
    (tikvid : TikvidData) (originalUrl : String) :
    (∀ mi, tikwm.music_info = some mi → mi.play ≠ "" →
      ((combineMetadataAndDownloads tikwm tikvid originalUrl).music_info).map
        (fun m => m.play) = some mi.play) ∧
    ((∀ mi, tikwm.music_info = some mi → mi.play = "") →
      ∀ ad, tikvid.downloads.find? (fun d => d.dtype = "audio") = some ad →
      ((combineMetadataAndDownloads tikwm tikvid originalUrl).music_info).map
        (fun m => m.play) = some ad.url) ∧
    ((∀ mi, tikwm.music_info = some mi → mi.play = "") →
      tikvid.downloads.find? (fun d => d.dtype = "audio") = none →
      tikwm.music ≠ "" → tikwm.music ≠ "#" →
      ((combineMetadataAndDownloads tikwm tikvid originalUrl).music_info).map
        (fun m => m.play) = some tikwm.music) ∧
    ((∀ mi, tikwm.music_info = some mi → mi.play = "") →
      tikvid.downloads.find? (fun d => d.dtype = "audio") = none →
      (tikwm.music = "" ∨ tikwm.music = "#") →
      (combineMetadataAndDownloads tikwm tikvid originalUrl).music_info = none) := by
  have hrec : (combineMetadataAndDownloads tikwm tikvid originalUrl).music_info =
      musicInfoOf tikwm tikvid := rfl
  refine ⟨?_, ?_, ?_, ?_⟩
  · intro mi hmi hplay
    rw [hrec, musicInfoOf, hmi]
    simp [hplay]
  · intro htm ad had
    rw [hrec, musicInfoOf_eq_fallback htm, musicInfoFallback, had]
    rfl
  · intro htm hno hne hnh
    rw [hrec, musicInfoOf_eq_fallback htm, musicInfoFallback, hno,
      tikvidUrls_music_none_of_no_audio hno]
    simp [hne, hnh]
  · intro htm hno hempty
    rw [hrec, musicInfoOf_eq_fallback htm, musicInfoFallback, hno,
      tikvidUrls_music_none_of_no_audio hno]
    rcases hempty with h | h <;> simp [h]

/-- Witness for C8, exercising the four precedence levels on concrete
payloads. -/
theorem fusion_music_info_precedence_witness :
    ((combineMetadataAndDownloads
        { music_info := some { play := "https://tikwm.example/m.mp3" } } {} "o").music_info).map
      (fun m => m.play) = some "https://tikwm.example/m.mp3" ∧
    ((combineMetadataAndDownloads {}
        { downloads := [⟨"audio", "MP3 128kbps", "https://tikvid.example/a.mp3"⟩] }
        "o").music_info).map
      (fun m => m.play) = some "https://tikvid.example/a.mp3" ∧
    ((combineMetadataAndDownloads { music := "https://tikwm.example/left.mp3" } {}
        "o").music_info).map
      (fun m => m.play) = some "https://tikwm.example/left.mp3" ∧
    (combineMetadataAndDownloads {} {} "o").music_info = none := by
  refine ⟨?_, ?_, ?_, ?_⟩
  · exact (fusion_music_info_precedence
      { music_info := some { play := "https://tikwm.example/m.mp3" } } {} "o").1
      { play := "https://tikwm.example/m.mp3" } rfl (by decide)
  · exact (fusion_music_info_precedence {}
      { downloads := [⟨"audio", "MP3 128kbps", "https://tikvid.example/a.mp3"⟩] }
      "o").2.1 (by intro mi h; cases h)
      ⟨"audio", "MP3 128kbps", "https://tikvid.example/a.mp3"⟩ (by decide)
  · exact (fusion_music_info_precedence
      { music := "https://tikwm.example/left.mp3" } {} "o").2.2.1
      (by intro mi h; cases h) (by decide) (by decide) (by decide)
  · exact (fusion_music_info_precedence {} {} "o").2.2.2
      (by intro mi h; cases h) (by decide) (Or.inl rfl)

lemma getFromCache_snd_eq {α : Type} (c : Cache α) (k : String) (now : Nat) :
    (getFromCache c k now).2 = c ∨ (getFromCache c k now).2 = mapDelete c k := by
  rw [getFromCache]
  rcases h : mapGet c k with _ | ⟨ts, data⟩
  · left; rfl
  · by_cases hl : now - ts < cacheTimeout
    · simp [hl]
    · simp [hl]

lemma getFromCache_snd_nodup {α : Type} (c : Cache α) (k : String) (now : Nat)
    (hnd : (cacheKeys c).Nodup) : (cacheKeys (getFromCache c k now).2).Nodup := by
  rcases getFromCache_snd_eq c k now with h | h <;> rw [h]
  · exact hnd
  · exact List.Nodup.sublist (cacheKeys_mapDelete_sublist c k) hnd

lemma getFromCache_snd_length_le {α : Type} (c : Cache α) (k : String)
    (now : Nat) (hle : c.length ≤ 50) :
    (getFromCache c k now).2.length ≤ 50 := by
  rcases getFromCache_snd_eq c k now with h | h <;> rw [h]
  · exact hle
  · exact le_trans (length_mapDelete_le c k) hle

/-- C2: when the metadata fetch succeeds but the download-link provider call
fails, `fetchVideoData` returns the degraded record: its download URLs
equal its preview URLs field-for-field, and the metadata source marker is
`tikwm_with_proxy_fallback`, distinct from the hybrid-mode value
`hybrid_tikwm_tikvid`. -/
theorem fusion_degraded_mode (cache : Cache CombinedRecord) (u : UrlObj)
    (now : Nat) (m : CombinedRecord) (mrr : Option CombinedRecord)
    (ivu : String → Bool)
    (hval : utilsIsValidTikTokUrl u = true)
    (hmiss : (getFromCache cache (urlToString (cleanUrl u)) now).1 = none)
    (hm1 : m.tikvidData = none) (hm2 : m.originalUrls = none) :
    (fetchVideoData cache u now (some m) none mrr ivu).record =
      some (degradeRecord m) ∧
    downloadUrlsOf (degradeRecord m) = previewUrlsOf (degradeRecord m) ∧
    (degradeRecord m).metadata.source = "tikwm_with_proxy_fallback" ∧
    (degradeRecord m).metadata.source ≠ "hybrid_tikwm_tikvid" ∧
    (degradeRecord m).metadata.downloadMode = some "proxy_fallback" := by
  refine ⟨?_, ?_, rfl,
    by show "tikwm_with_proxy_fallback" ≠ "hybrid_tikwm_tikvid"; decide, rfl⟩
  · rcases hg : getFromCache cache (urlToString (cleanUrl u)) now with ⟨res, c₁⟩
    rw [hg] at hmiss
    simp only at hmiss
    subst hmiss
    rw [fetchVideoData]
    simp [hval, hg]
  · have hd1 : (degradeRecord m).tikvidData = none := by
      rw [degradeRecord]; exact hm1
    have hd2 : (degradeRecord m).originalUrls = none := by
      rw [degradeRecord]; exact hm2
    rw [downloadUrlsOf, previewUrlsOf, hd1, hd2]

/-- Witness for C2: a concrete metadata record fetched with a failed
download-link call yields the degraded record with download URLs equal to
the preview URLs. -/
theorem fusion_degraded_mode_witness :
    (fetchVideoData [] ⟨"https", "www.tiktok.com", "/@u/video/9", []⟩ 0
        (some { title := "X", play := "https://tikwm.example/p.mp4" }) none none
        (fun _ => true)).record =
      some (degradeRecord { title := "X", play := "https://tikwm.example/p.mp4" }) ∧
    downloadUrlsOf (degradeRecord { title := "X", play := "https://tikwm.example/p.mp4" }) =
      previewUrlsOf (degradeRecord { title := "X", play := "https://tikwm.example/p.mp4" }) ∧
    (degradeRecord { title := "X", play := "https://tikwm.example/p.mp4" }).metadata.source
      ≠ "hybrid_tikwm_tikvid" := by
  have h := fusion_degraded_mode [] ⟨"https", "www.tiktok.com", "/@u/video/9", []⟩ 0
    { title := "X", play := "https://tikwm.example/p.mp4" } none (fun _ => true)
    (by decide) (by decide) rfl rfl
  exact ⟨h.1, h.2.1, h.2.2.2.1⟩

/-- C10: when the download-link provider call fails, the degraded
metadata-only record is cached under the cleaned URL, and a second fetch of
the same URL within the 5-minute TTL returns the cached degraded record
without contacting the download-link provider, whatever either provider
would now answer. -/
theorem degraded_record_cached_and_served (cache : Cache CombinedRecord)
    (u : UrlObj) (now now' : Nat) (m : CombinedRecord)
    (mrr mr₂ : Option CombinedRecord) (dl₂ : Option TikvidData)
    (ivu ivu₂ : String → Bool)
    (hval : utilsIsValidTikTokUrl u = true)
    (hnd : (cacheKeys cache).Nodup) (hle : cache.length ≤ 50)
    (hmiss : (getFromCache cache (urlToString (cleanUrl u)) now).1 = none)
    (httl : now' < now + cacheTimeout) :
    (fetchVideoData cache u now (some m) none mrr ivu).record =
      some (degradeRecord m) ∧
    (fetchVideoData cache u now (some m) none mrr ivu).contactedDownloadProvider
      = true ∧
    mapGet (fetchVideoData cache u now (some m) none mrr ivu).cache
      (urlToString (cleanUrl u)) = some (now, degradeRecord m) ∧
    (fetchVideoData (fetchVideoData cache u now (some m) none mrr ivu).cache
        u now' mr₂ dl₂ mrr ivu₂).record = some (degradeRecord m) ∧
    (fetchVideoData (fetchVideoData cache u now (some m) none mrr ivu).cache
        u now' mr₂ dl₂ mrr ivu₂).contactedDownloadProvider = false := by
  set key := urlToString (cleanUrl u) with hkey
  rcases hg : getFromCache cache key now with ⟨res, c₁⟩
  rw [hg] at hmiss
  simp only at hmiss
  subst hmiss
  have hc₁nd : (cacheKeys c₁).Nodup := by
    have := getFromCache_snd_nodup cache key now hnd
    rw [hg] at this; exact this
  have hc₁le : c₁.length ≤ 50 := by
    have := getFromCache_snd_length_le cache key now hle
    rw [hg] at this; exact this
  have h₁ : fetchVideoData cache u now (some m) none mrr ivu =
      ⟨some (degradeRecord m), saveToCache c₁ key (degradeRecord m) now, true⟩ := by
    rw [fetchVideoData]
    simp [hval, hg, hkey]
  have hsave : mapGet (saveToCache c₁ key (degradeRecord m) now) key =
      some (now, degradeRecord m) :=
    mapGet_saveToCache c₁ key (degradeRecord m) now hc₁nd hc₁le
  refine ⟨by rw [h₁], by rw [h₁], by rw [h₁]; exact hsave, ?_, ?_⟩
  all_goals
    rw [h₁]
    have hg₂ : getFromCache (saveToCache c₁ key (degradeRecord m) now) key now' =
        (some (degradeRecord m), saveToCache c₁ key (degradeRecord m) now) := by
      rw [getFromCache, hsave]
      have : now' - now < cacheTimeout := by unfold cacheTimeout at httl ⊢; omega
      simp [this]
    rw [fetchVideoData]
    simp [hval, ← hkey, hg₂]

/-- C3: for every non-empty target URL other than `'#'`, the transports are
tried strictly in the order proxy → direct fetch → native link, each under
`retryAsync(·, 2, 1000)` (2 attempts, 1000ms base backoff); when the
direct-link construction never throws the overall operation succeeds (so in
particular when proxy and fetch exhaust their retries the native-link
fallback still runs); and with a proxy that always returns empty bodies and
a fetch that always sees HTTP 404, the operation succeeds with exactly that
trace. -/
theorem downloadMedia_fallback_chain (url : String) (o : MediaOracles)
    (h1 : url ≠ "") (h2 : url ≠ "#") :
    (attemptDownload url o).2.1.map (fun t => t.1) <+:
      [MethodTag.tikvidProxy, MethodTag.fetchBlob, MethodTag.directLink] ∧
    ((∀ n, o.directLink n = .ok ()) → (downloadMedia url o).1 = .ok ()) ∧
    ((∀ n, o.tikvidProxy n = .error "Empty file received from TikVid proxy") →
      (∀ n, o.fetchBlob n = .error "HTTP 404: Not Found") →
      (∀ n, o.directLink n = .ok ()) →
      downloadMedia url o = (.ok (),
        [(.tikvidProxy, 2, [1000]), (.fetchBlob, 2, [1000]),
          (.directLink, 1, [])])) := by
  refine ⟨?_, ?_, ?_⟩
  · rcases hr₁ : retryAsync o.tikvidProxy 2 1000 with ⟨r₁, a₁, d₁⟩
    rcases r₁ with e₁ | u₁
    · by_cases hc₁ : (isTikVidUrl url && isConnectivityError e₁) = true
      · simp only [attemptDownload, hr₁, if_pos hc₁, List.map]
        exact ⟨[MethodTag.fetchBlob, MethodTag.directLink], rfl⟩
      · rcases hr₂ : retryAsync o.fetchBlob 2 1000 with ⟨r₂, a₂, d₂⟩
        rcases r₂ with e₂ | u₂
        · by_cases hc₂ : (isTikVidUrl url && isConnectivityError e₂) = true
          · simp only [attemptDownload, hr₁, if_neg hc₁, hr₂, if_pos hc₂, List.map]
            exact ⟨[MethodTag.directLink], rfl⟩
          · rcases hr₃ : retryAsync o.directLink 2 1000 with ⟨r₃, a₃, d₃⟩
            rcases r₃ with e₃ | u₃
            · by_cases hc₃ : (isTikVidUrl url && isConnectivityError e₃) = true
              · simp only [attemptDownload, hr₁, if_neg hc₁, hr₂, if_neg hc₂,
                  hr₃, if_pos hc₃, List.map]
                exact ⟨[], rfl⟩
              · simp only [attemptDownload, hr₁, if_neg hc₁, hr₂, if_neg hc₂,
                  hr₃, if_neg hc₃, List.map]
                exact ⟨[], rfl⟩
            · simp only [attemptDownload, hr₁, if_neg hc₁, hr₂, if_neg hc₂,
                hr₃, List.map]
              exact ⟨[], rfl⟩
        · simp only [attemptDownload, hr₁, if_neg hc₁, hr₂, List.map]
          exact ⟨[MethodTag.directLink], rfl⟩
    · simp only [attemptDownload, hr₁, List.map]
      exact ⟨[MethodTag.fetchBlob, MethodTag.directLink], rfl⟩
  · intro hlink
    rcases hA : attemptDownload url o with ⟨rA, trA, lcA⟩
    rcases rA with e | u
    · simp [downloadMedia, h1, h2, hA, hlink lcA]
    · simp [downloadMedia, h1, h2, hA]
  · intro hp hf hl
    have hrange : List.range 2 = [0, 1] := rfl
    have hr₁ : retryAsync o.tikvidProxy 2 1000 =
        (.error "Empty file received from TikVid proxy", 2, [1000]) := by
      rw [retryAsync, hrange]; simp [retryGo, hp 0, hp 1]
    have hr₂ : retryAsync o.fetchBlob 2 1000 =
        (.error "HTTP 404: Not Found", 2, [1000]) := by
      rw [retryAsync, hrange]; simp [retryGo, hf 0, hf 1]
    have hr₃ : retryAsync o.directLink 2 1000 = (.ok (), 1, []) := by
      rw [retryAsync, hrange]; simp [retryGo, hl 0]
    have hc₁ : isConnectivityError "Empty file received from TikVid proxy" = false := by
      decide
    have hc₂ : isConnectivityError "HTTP 404: Not Found" = false := by decide
    simp [downloadMedia, h1, h2, attemptDownload, hr₁, hr₂, hr₃, hc₁, hc₂]

/-- Witness for C3: empty proxy bodies and constant 404s still end in the
native-link fallback and overall success, with the expected retry trace. -/
theorem downloadMedia_fallback_chain_witness :
    downloadMedia "https://example.com/v.mp4"
      ⟨fun _ => .error "Empty file received from TikVid proxy",
       fun _ => .error "HTTP 404: Not Found",
       fun _ => .ok ()⟩ =
      (.ok (), [(.tikvidProxy, 2, [1000]), (.fetchBlob, 2, [1000]),
        (.directLink, 1, [])]) :=
  (downloadMedia_fallback_chain "https://example.com/v.mp4"
      ⟨fun _ => .error "Empty file received from TikVid proxy",
       fun _ => .error "HTTP 404: Not Found",
       fun _ => .ok ()⟩ (by decide) (by decide)).2.2
    (fun _ => rfl) (fun _ => rfl) (fun _ => rfl)

/-- C4: bulk ZIP creation fails with the empty-archive error exactly when
every image fails all methods; if at least one image succeeds the archive
holds exactly the successfully fetched blobs, named by their 1-based global
index, and the reported count is the number of successes out of the total. -/
theorem downloadAllImagesAsZip_partial_success (images : List ImgOracle)
    (hne : images ≠ []) :
    ((∀ o ∈ images, exceptIsOk (processImageForZip o) = false) →
      downloadAllImagesAsZip images =
        .error "Không thể xử lý ảnh nào cho file ZIP") ∧
    ((∃ o ∈ images, exceptIsOk (processImageForZip o) = true) →
      downloadAllImagesAsZip images = .ok
        (images.enum.filterMap (fun p =>
            (exceptToOption (processImageForZip p.2)).map
              (fun b => (zipEntryName p.1, b))),
          (images.filter (fun o => exceptIsOk (processImageForZip o))).length,
          images.length)) := by
  have hlen : ¬ images.length = 0 := by
    intro h; exact hne (List.length_eq_zero.1 h)
  constructor
  · intro hall
    have hfil : images.filter (fun a => exceptIsOk (processImageForZip a)) = [] := by
      rw [List.filter_eq_nil_iff]
      intro a ha
      simp [hall a ha]
    have hz : (zipFiles images).length = 0 := by
      rw [zipFiles_length, hfil]; rfl
    rw [downloadAllImagesAsZip, if_neg hlen, if_pos hz]
  · rintro ⟨o, ho, hok⟩
    have hmem : o ∈ images.filter (fun a => exceptIsOk (processImageForZip a)) :=
      List.mem_filter.2 ⟨ho, hok⟩
    have hz : ¬ (zipFiles images).length = 0 := by
      rw [zipFiles_length]
      have := List.length_pos.2 (List.ne_nil_of_mem hmem)
      omega
    rw [downloadAllImagesAsZip, if_neg hlen, if_neg hz, zipFiles_length,
      zipFiles_eq]

/-- Witness for C4: five images of which the 2nd and 4th consistently fail
every method; the archive holds exactly files 1, 3, 5 and reports 3 of 5. -/
theorem downloadAllImagesAsZip_partial_success_witness :
    downloadAllImagesAsZip
      [⟨fun _ => .ok ⟨true, 200, ⟨100, "image/jpeg"⟩⟩, .error "no canvas"⟩,
       ⟨fun _ => .error "network down", .error "no canvas"⟩,
       ⟨fun _ => .ok ⟨true, 200, ⟨120, "image/jpeg"⟩⟩, .error "no canvas"⟩,
       ⟨fun _ => .error "network down", .error "no canvas"⟩,
       ⟨fun _ => .ok ⟨true, 200, ⟨140, "image/jpeg"⟩⟩, .error "no canvas"⟩] =
      .ok ([("image_1.jpg", ⟨100, "image/jpeg"⟩),
            ("image_3.jpg", ⟨120, "image/jpeg"⟩),
            ("image_5.jpg", ⟨140, "image/jpeg"⟩)], 3, 5) := by
  refine ((downloadAllImagesAsZip_partial_success _
    (List.cons_ne_nil _ _)).2 ?_).trans ?_
  · exact ⟨_, List.mem_cons_self _ _, by decide⟩
  · rfl

/-- C9: the sequential mode downloads every image in index order whatever
the per-image outcomes are (a failing image is caught and skipped, never
aborting the remainder), with a fixed 500ms delay between consecutive items
and none after the last (the trace ends in a download event). -/
theorem sequential_downloads_all_with_delays
    (images : List ImageMethodOracles) :
    (downloadAllImagesIndividually images).filterMap downloadIndex? =
      List.range images.length ∧
    (downloadAllImagesIndividually images).filter isDelay =
      List.replicate (images.length - 1) (SeqEvent.delay 500) ∧
    (images ≠ [] → ∃ b, (downloadAllImagesIndividually images).getLast? =
      some (SeqEvent.download (images.length - 1) b)) := by
  refine ⟨?_, ?_, ?_⟩
  · rw [downloadAllImagesIndividually, seqGo_filterMap_downloadIndex,
      List.range_eq_range']
  · exact seqGo_filter_delay images 0 images.length (by omega)
  · intro hne
    have h := seqGo_getLast images 0 images.length hne (by omega)
    simpa [downloadAllImagesIndividually] using h

/-- Witness for C9: three images of which only the middle one succeeds; all
three download events appear in order, with exactly two 500ms delays and a
final download event. -/
theorem sequential_downloads_all_with_delays_witness :
    (downloadAllImagesIndividually
        [⟨.error "x", .error "x", .error "x", .error "x"⟩,
         ⟨.ok (), .ok (), .ok (), .ok ()⟩,
         ⟨.error "x", .error "x", .error "x", .error "x"⟩]).filterMap
      downloadIndex? = [0, 1, 2] ∧
    (downloadAllImagesIndividually
        [⟨.error "x", .error "x", .error "x", .error "x"⟩,
         ⟨.ok (), .ok (), .ok (), .ok ()⟩,
         ⟨.error "x", .error "x", .error "x", .error "x"⟩]).filter
      isDelay = [SeqEvent.delay 500, SeqEvent.delay 500] ∧
    ∃ b, (downloadAllImagesIndividually
        [⟨.error "x", .error "x", .error "x", .error "x"⟩,
         ⟨.ok (), .ok (), .ok (), .ok ()⟩,
         ⟨.error "x", .error "x", .error "x", .error "x"⟩]).getLast? =
      some (SeqEvent.download 2 b) := by
  have h := sequential_downloads_all_with_delays
    [⟨.error "x", .error "x", .error "x", .error "x"⟩,
     ⟨.ok (), .ok (), .ok (), .ok ()⟩,
     ⟨.error "x", .error "x", .error "x", .error "x"⟩]
  exact ⟨h.1, h.2.1, h.2.2 (List.cons_ne_nil _ _)⟩

/-- Witness for C10: the degraded record for a concrete URL is cached;
a second fetch 200 seconds later returns it even though both providers
would now answer successfully, and the download-link provider is not
contacted. -/
theorem degraded_record_cached_and_served_witness :
    (fetchVideoData [] ⟨"https", "www.tiktok.com", "/@u/video/7", []⟩ 0
        (some { title := "T" }) none none (fun _ => true)).record =
      some (degradeRecord { title := "T" }) ∧
    (fetchVideoData
        (fetchVideoData [] ⟨"https", "www.tiktok.com", "/@u/video/7", []⟩ 0
          (some { title := "T" }) none none (fun _ => true)).cache
        ⟨"https", "www.tiktok.com", "/@u/video/7", []⟩ 200000
        (some { title := "fresh" }) (some {}) none (fun _ => true)).record =
      some (degradeRecord { title := "T" }) ∧
    (fetchVideoData
        (fetchVideoData [] ⟨"https", "www.tiktok.com", "/@u/video/7", []⟩ 0
          (some { title := "T" }) none none (fun _ => true)).cache
        ⟨"https", "www.tiktok.com", "/@u/video/7", []⟩ 200000
        (some { title := "fresh" }) (some {}) none
        (fun _ => true)).contactedDownloadProvider = false := by
  have h := degraded_record_cached_and_served []
    ⟨"https", "www.tiktok.com", "/@u/video/7", []⟩ 0 200000 { title := "T" }
    none (some { title := "fresh" }) (some {}) (fun _ => true) (fun _ => true)
    (by decide) (by decide) (by decide) (by decide) (by decide)
  exact ⟨h.1, h.2.2.2.1, h.2.2.2.2⟩

end Downtik
